import Mathlib

/-!
Shallow embedding of the core of `claude-provider-rs`: the config data
model (`src/config/types.rs`), the config/backup persistence layer
(`src/config/manager.rs`), the provider/token detector
(`src/provider/detector.rs`) and the two switch workflows
(`src/provider/anthropic.rs`, `src/provider/glm.rs`).

Rust strings are modelled as `List Char`; Rust's byte-oriented
`str::len` and byte slicing are modelled through `Char.utf8Size`.
JSON documents are modelled by the inductive `Json`, and the serde
(de)serialization of the two derived structs `Config` and
`BackupConfig` is modelled by explicit encode/decode functions.
Files are modelled as `Option FileContent`: `none` for an absent file,
`FileContent.invalid` for present-but-unparseable text, and
`FileContent.json j` for a file holding the JSON document `j`.
Timestamps (`Utc::now()`) are passed in explicitly as an `Int`.
-/

/-- A Rust string, as its list of characters. -/
abbrev Str := List Char

/-- Convert a Lean string literal into the `Str` model. -/
def chars (s : String) : Str := s.toList

/-- Rust `str::len`: the UTF-8 byte length of a string. -/
def rustLen (t : Str) : Nat := (t.map Char.utf8Size).sum

/-- A JSON document (numbers restricted to integers, which is all this
program ever reads or writes). -/
inductive Json where
  | null
  | bool (b : Bool)
  | num (n : Int)
  | str (s : Str)
  | arr (elems : List Json)
  | obj (fields : List (Str × Json))

/-- `Config` from `src/config/types.rs`: a `{ env: map }` settings object.
The `HashMap<String, String>` is modelled as an association list. -/
structure Config where
  env : List (Str × Str)
deriving DecidableEq

/-- `BackupMetadata` from `src/config/types.rs`. `created_at` uses
`chrono::serde::ts_seconds_option`, i.e. it is (de)serialized as an
optional integer count of epoch seconds. -/
structure BackupMetadata where
  provider : Str
  created_at : Option Int
  version : Str
deriving DecidableEq

/-- `BackupConfig` from `src/config/types.rs`: metadata (serialized under
the field name `_metadata`) together with the backed-up env map. -/
structure BackupConfig where
  metadata : BackupMetadata
  env : List (Str × Str)
deriving DecidableEq

/-- `Provider` from `src/config/types.rs`. `types.rs` names the alternate
variant `ZAI` while `detector.rs`/`glm.rs` call it `GLM`; the repository is
mid-rename and the two names denote the same variant. We use `GLM`. -/
inductive Provider where
  | Anthropic
  | GLM
  | Custom
  | Unknown
deriving DecidableEq

/-- `Provider::as_str` from `src/config/types.rs`. -/
def Provider.as_str : Provider → Str
  | .Anthropic => chars "anthropic"
  | .GLM => chars "z_ai"
  | .Custom => chars "custom"
  | .Unknown => chars "unknown"

/-- `TokenType` from `src/config/types.rs` (alternate variant named `ZAI`
there and `GLM` in `detector.rs`; same mid-rename note as `Provider`). -/
inductive TokenType where
  | GLM
  | Anthropic
  | Unknown
deriving DecidableEq

/-! ### serde encode/decode model -/

/-- Decode a JSON value as a string (serde `String` field). -/
def asStr : Json → Option Str
  | .str s => some s
  | _ => none

/-- Decode the fields of a JSON object as a string-to-string map
(serde `HashMap<String, String>` value). -/
def decodeEnvPairs : List (Str × Json) → Option (List (Str × Str))
  | [] => some []
  | (k, v) :: rest =>
    match v with
    | .str s => (decodeEnvPairs rest).map (fun tl => (k, s) :: tl)
    | _ => none

/-- Decode a JSON value as a string-to-string map. -/
def decodeStrMap : Json → Option (List (Str × Str))
  | .obj fields => decodeEnvPairs fields
  | _ => none

/-- serde deserialization of `Config`: a JSON object whose optional `env`
field (serde `default`) is a string map; unknown fields are ignored. -/
def decodeConfig : Json → Option Config
  | .obj fields =>
    match List.lookup (chars "env") fields with
    | none => some ⟨[]⟩
    | some v => (decodeStrMap v).map Config.mk
  | _ => none

/-- `chrono::serde::ts_seconds_option` deserialization: `null` gives
`None`, an integer gives `Some`. -/
def decodeCreatedAt : Json → Option (Option Int)
  | .null => some none
  | .num n => some (some n)
  | _ => none

/-- serde deserialization of `BackupMetadata`: all three fields required. -/
def decodeMetadata : Json → Option BackupMetadata
  | .obj fields =>
    match List.lookup (chars "provider") fields,
          List.lookup (chars "created_at") fields,
          List.lookup (chars "version") fields with
    | some pj, some cj, some vj =>
      match asStr pj, decodeCreatedAt cj, asStr vj with
      | some p, some c, some v => some ⟨p, c, v⟩
      | _, _, _ => none
    | _, _, _ => none
  | _ => none

/-- serde deserialization of `BackupConfig`: requires the `_metadata`
field; `env` defaults to empty when absent. -/
def decodeBackupConfig : Json → Option BackupConfig
  | .obj fields =>
    match List.lookup (chars "_metadata") fields with
    | none => none
    | some mj =>
      match decodeMetadata mj with
      | none => none
      | some m =>
        match List.lookup (chars "env") fields with
        | none => some ⟨m, []⟩
        | some v => (decodeStrMap v).map (fun e => BackupConfig.mk m e)
  | _ => none

/-- serde serialization of an env map. -/
def encodeEnv (env : List (Str × Str)) : Json :=
  .obj (env.map (fun kv => (kv.1, Json.str kv.2)))

/-- serde serialization of `Config`: the `env` field is skipped when the
map is empty (`skip_serializing_if = "HashMap::is_empty"`). -/
def encodeConfig (c : Config) : Json :=
  .obj (if c.env.isEmpty then [] else [(chars "env", encodeEnv c.env)])

/-- `ts_seconds_option` serialization of `created_at`. -/
def encodeCreatedAt : Option Int → Json
  | none => .null
  | some n => .num n

/-- serde serialization of `BackupMetadata`. -/
def encodeMetadata (m : BackupMetadata) : Json :=
  .obj [(chars "provider", .str m.provider),
        (chars "created_at", encodeCreatedAt m.created_at),
        (chars "version", .str m.version)]

/-! ### ProviderDetector (`src/provider/detector.rs`) -/

/-- Rust `str::contains(needle)`: some suffix of the haystack starts with
the needle. -/
def rustContains (hay needle : Str) : Bool :=
  hay.tails.any (fun s => needle.isPrefixOf s)

/-- The `base_url` local of `detect_provider`: the value of the
`ANTHROPIC_BASE_URL` key, or the empty string when absent
(`unwrap_or(&empty_string)`). -/
def baseUrl (c : Config) : Str :=
  (List.lookup (chars "ANTHROPIC_BASE_URL") c.env).getD []

/-- `ProviderDetector::detect_provider`. -/
def detect_provider (c : Config) : Provider :=
  if c.env.isEmpty then .Unknown
  else if rustContains (baseUrl c) (chars "z.ai") then .GLM
  else if (baseUrl c).isEmpty then .Anthropic
  else .Custom

/-- `ProviderDetector::is_glm_key` (called `is_zai_key` at its use sites
in `anthropic.rs`/`switcher.rs`; same mid-rename as `Provider`). -/
def is_glm_key (k : Str) : Bool :=
  k == chars "ANTHROPIC_BASE_URL" ||
  k == chars "API_TIMEOUT_MS" ||
  k == chars "ANTHROPIC_DEFAULT_OPUS_MODEL" ||
  k == chars "ANTHROPIC_DEFAULT_SONNET_MODEL" ||
  k == chars "ANTHROPIC_DEFAULT_HAIKU_MODEL"

/-- `ProviderDetector::detect_token_type`. `token.matches('.').count()`
is the number of `'.'` characters; lengths are UTF-8 byte lengths. -/
def detect_token_type (t : Str) : TokenType :=
  if t.isEmpty then .Unknown
  else if (chars "sk-").isPrefixOf t || (chars "glm-").isPrefixOf t then .GLM
  else if 2 ≤ t.count '.' ∧ 100 < rustLen t then .Anthropic
  else if 200 < rustLen t then .Anthropic
  else if rustLen t < 100 then .GLM
  else .Unknown

/-- Model of the Rust byte slice `&t[..n]`: the characters making up the
first `n` bytes of `t`, or `none` (a panic) when `n` is out of range or
not on a character boundary. -/
def takeBytes : Nat → Str → Option Str
  | 0, _ => some []
  | _ + 1, [] => none
  | n + 1, c :: rest =>
    if c.utf8Size ≤ n + 1 then
      (takeBytes (n + 1 - c.utf8Size) rest).map (fun a => c :: a)
    else none

/-- Model of the Rust byte slice `&t[n..]`: the characters of `t` after
its first `n` bytes, or `none` (a panic) when `n` is out of range or not
on a character boundary. -/
def dropBytes : Nat → Str → Option Str
  | 0, s => some s
  | _ + 1, [] => none
  | n + 1, c :: rest =>
    if c.utf8Size ≤ n + 1 then dropBytes (n + 1 - c.utf8Size) rest
    else none

/-- `ProviderDetector::mask_token`. The two byte slices `&token[..4]` and
`&token[token.len() - 4..]` panic on non-boundary indices, modelled as
`none`. -/
def mask_token (t : Str) : Option Str :=
  if rustLen t ≤ 8 then some (chars "********")
  else
    match takeBytes 4 t, dropBytes (rustLen t - 4) t with
    | some a, some b => some (a ++ chars "..." ++ b)
    | _, _ => none

/-! ### ConfigManager (`src/config/manager.rs`) -/

/-- The contents of a present file: either text that is not valid JSON,
or a JSON document. -/
inductive FileContent where
  | invalid
  | json (j : Json)

/-- The durable state the program manipulates: the settings file, the
backup file, the backup metadata sidecar, and the saved-token file
(`none` = the file does not exist). -/
structure State where
  settings : Option FileContent
  backup : Option FileContent
  backupMeta : Option FileContent
  token : Option Str

/-- The error channel of the persistence layer that the workflows
propagate (`anyhow` in the source); only JSON parse failures of the
settings file are reachable in this model. -/
inductive Err where
  | parseError
deriving DecidableEq

/-- `ConfigManager::load_config`: an absent file yields the default
(empty) config; unparseable contents propagate a parse error. -/
def load_config (file : Option FileContent) : Except Err Config :=
  match file with
  | none => .ok ⟨[]⟩
  | some .invalid => .error .parseError
  | some (.json j) =>
    match decodeConfig j with
    | some c => .ok c
    | none => .error .parseError

/-- `ConfigManager::has_valid_anthropic_backup` (the spec's
`load_backup`): tries the new `BackupConfig` shape first, then the legacy
bare-`Config` shape (with metadata synthesized at the current time
`now`); an absent or doubly-unparseable file yields `(false, none)`. -/
def has_valid_anthropic_backup (file : Option FileContent) (now : Int) :
    Bool × Option BackupConfig :=
  match file with
  | none => (false, none)
  | some .invalid => (false, none)
  | some (.json j) =>
    match decodeBackupConfig j with
    | some backup =>
      (backup.metadata.provider == Provider.Anthropic.as_str, some backup)
    | none =>
      match decodeConfig j with
      | some old =>
        (true, some ⟨⟨Provider.Anthropic.as_str, some now, chars "2.2.0"⟩,
                     old.env⟩)
      | none => (false, none)

/-- `ConfigManager::create_backup_with_metadata` (the spec's
`save_backup`): returns the JSON documents written to the backup file and
to the metadata sidecar, in that order. Note the source builds the full
`BackupConfig` but then saves `Config { env: backup.env }` to the backup
path (manager.rs line 108), so the first component carries no metadata. -/
def create_backup_with_metadata (config : Config) (provider : Provider)
    (now : Int) : Json × Json :=
  let backup : BackupConfig :=
    ⟨⟨provider.as_str, some now, chars "2.2.0"⟩, config.env⟩
  (encodeConfig ⟨backup.env⟩, encodeMetadata backup.metadata)

/-! ### Switch workflows (`src/provider/anthropic.rs`, `src/provider/glm.rs`) -/

/-- The observable outcome each workflow reports. -/
inductive Report where
  | alreadyAnthropic
  | emptyConfigWritten
  | restoredFromBackup
  | alreadyGLM
  | switchedToGLM
deriving DecidableEq

/-- `AnthropicSwitcher::switch_to_anthropic` (the spec's
`switch_to_default`) as a transformer of the durable state: no-op when
the current config is already Anthropic; otherwise restore the backup
with all `is_glm_key` keys stripped, or write an empty config when no
valid Anthropic backup exists. -/
def switch_to_anthropic (st : State) (now : Int) :
    Except Err (State × Report) :=
  match load_config st.settings with
  | .error e => .error e
  | .ok current =>
    if detect_provider current = Provider.Anthropic then
      .ok (st, .alreadyAnthropic)
    else
      match has_valid_anthropic_backup st.backup now with
      | (true, some b) =>
        let restored : Config := ⟨b.env.filter (fun kv => !(is_glm_key kv.1))⟩
        .ok ({ st with settings := some (.json (encodeConfig restored)) },
             .restoredFromBackup)
      | _ =>
        .ok ({ st with settings := some (.json (encodeConfig ⟨[]⟩)) },
             .emptyConfigWritten)

/-- `GLMSwitcher::create_glm_config`: the fixed GLM settings, with the
supplied token under `ANTHROPIC_AUTH_TOKEN`. -/
def create_glm_config (token : Str) : Config :=
  ⟨[(chars "ANTHROPIC_AUTH_TOKEN", token),
    (chars "ANTHROPIC_BASE_URL", chars "https://api.z.ai/api/anthropic"),
    (chars "API_TIMEOUT_MS", chars "3000000"),
    (chars "ANTHROPIC_DEFAULT_OPUS_MODEL", chars "GLM-4.7"),
    (chars "ANTHROPIC_DEFAULT_SONNET_MODEL", chars "GLM-4.7"),
    (chars "ANTHROPIC_DEFAULT_HAIKU_MODEL", chars "GLM-4.5-Air")]⟩

/-- `GLMSwitcher::backup_anthropic_config_if_needed`: keep an existing
valid Anthropic backup untouched; otherwise write a fresh backup (and its
metadata sidecar) of the current config tagged `Anthropic`. -/
def backup_anthropic_config_if_needed (st : State) (current : Config)
    (now : Int) : State :=
  match has_valid_anthropic_backup st.backup now with
  | (true, some _) => st
  | _ =>
    let written := create_backup_with_metadata current Provider.Anthropic now
    { st with backup := some (.json written.1),
              backupMeta := some (.json written.2) }

/-- `GLMSwitcher::switch_to_glm` (the spec's `switch_to_alternate`) as a
transformer of the durable state. The token supplier is an external
collaborator, modelled by the `token` argument; token validation is
advisory only and never rejects. -/
def switch_to_glm (st : State) (token : Str) (now : Int) :
    Except Err (State × Report) :=
  match load_config st.settings with
  | .error e => .error e
  | .ok current =>
    if detect_provider current = Provider.GLM then
      .ok (st, .alreadyGLM)
    else
      let st1 :=
        match detect_provider current with
        | .Anthropic => backup_anthropic_config_if_needed st current now
        | _ => st
      .ok ({ st1 with settings := some (.json (encodeConfig
              (create_glm_config token))) },
           .switchedToGLM)

/-! ### Helper lemmas -/

/-- Decoding an encoded env map gives the map back. -/
theorem decodeEnvPairs_encode (env : List (Str × Str)) :
    decodeEnvPairs (env.map (fun kv => (kv.1, Json.str kv.2))) = some env := by
  induction env with
  | nil => rfl
  | cons kv tl ih => simp [decodeEnvPairs, ih]

/-- JSON round trip for `Config`: what `save_config_atomic` writes,
`load_config` parses back to the same config. -/
theorem decodeConfig_encodeConfig (c : Config) :
    decodeConfig (encodeConfig c) = some c := by
  obtain ⟨env⟩ := c
  cases env with
  | nil => rfl
  | cons kv tl =>
    have h := decodeEnvPairs_encode (kv :: tl)
    simp only [List.map_cons] at h
    simp [encodeConfig, decodeConfig, List.lookup, decodeStrMap, encodeEnv, h]

/-- The backup file written by `create_backup_with_metadata` is a bare
`Config` object, so it never parses as the new `BackupConfig` shape. -/
theorem decodeBackupConfig_encodeConfig (c : Config) :
    decodeBackupConfig (encodeConfig c) = none := by
  obtain ⟨env⟩ := c
  cases env with
  | nil => rfl
  | cons kv tl =>
    have h : (chars "_metadata" == chars "env") = false := by decide
    simp [encodeConfig, decodeBackupConfig, List.lookup, h]

/-- The validity bit of `has_valid_anthropic_backup` does not depend on
the current time. -/
theorem has_valid_fst_time (f : Option FileContent) (n1 n2 : Int) :
    (has_valid_anthropic_backup f n1).1 = (has_valid_anthropic_backup f n2).1 := by
  cases f with
  | none => rfl
  | some fc =>
    cases fc with
    | invalid => rfl
    | json j =>
      simp only [has_valid_anthropic_backup]
      cases hd : decodeBackupConfig j with
      | some b => simp
      | none => cases hc : decodeConfig j <;> simp

/-- The env of the backup returned by `has_valid_anthropic_backup` does
not depend on the current time. -/
theorem has_valid_snd_env (f : Option FileContent) (n1 n2 : Int) :
    (has_valid_anthropic_backup f n1).2.map BackupConfig.env
      = (has_valid_anthropic_backup f n2).2.map BackupConfig.env := by
  cases f with
  | none => rfl
  | some fc =>
    cases fc with
    | invalid => rfl
    | json j =>
      simp only [has_valid_anthropic_backup]
      cases hd : decodeBackupConfig j with
      | some b => simp
      | none => cases hc : decodeConfig j <;> simp

/-- When the validity bit is set, a backup value is present. -/
theorem has_valid_true_some (f : Option FileContent) (n : Int)
    (h : (has_valid_anthropic_backup f n).1 = true) :
    ∃ b, (has_valid_anthropic_backup f n).2 = some b := by
  cases f with
  | none => exact absurd h (by simp [has_valid_anthropic_backup])
  | some fc =>
    cases fc with
    | invalid => exact absurd h (by simp [has_valid_anthropic_backup])
    | json j =>
      simp only [has_valid_anthropic_backup] at h ⊢
      cases hd : decodeBackupConfig j with
      | some b => simp
      | none =>
        rw [hd] at h
        cases hc : decodeConfig j with
        | some c => simp
        | none => rw [hc] at h; exact absurd h (by simp)

/-- Looking up a key that the filter removes yields nothing. -/
theorem lookup_filter_of_key (p : Str → Bool) (k : Str) (hk : p k = true) :
    ∀ l : List (Str × Str),
      List.lookup k (l.filter (fun kv => !(p kv.1))) = none := by
  intro l
  induction l with
  | nil => rfl
  | cons kv tl ih =>
    cases hp : p kv.1 with
    | true => simpa [List.filter, hp] using ih
    | false =>
      have hne : (k == kv.1) = false := by
        rw [beq_eq_false_iff_ne]
        intro he
        rw [← he, hk] at hp
        exact Bool.noConfusion hp
      simp [List.filter, hp, List.lookup, hne, ih]

/-- Looking up a key that the filter keeps is unchanged by filtering. -/
theorem lookup_filter_eq (p : Str → Bool) (k : Str) (hk : p k = false) :
    ∀ l : List (Str × Str),
      List.lookup k (l.filter (fun kv => !(p kv.1))) = List.lookup k l := by
  intro l
  induction l with
  | nil => rfl
  | cons kv tl ih =>
    cases hp : p kv.1 with
    | true =>
      have hne : (k == kv.1) = false := by
        rw [beq_eq_false_iff_ne]
        intro he
        rw [← he, hk] at hp
        exact Bool.noConfusion hp
      simp [List.filter, hp, List.lookup, hne, ih]
    | false =>
      cases he : (k == kv.1) with
      | true => simp [List.filter, hp, List.lookup, he]
      | false => simp [List.filter, hp, List.lookup, he, ih]

/-- A non-empty config with no `ANTHROPIC_BASE_URL` key is detected as
Anthropic. -/
theorem detect_provider_nonempty_nobase (c : Config) (h1 : c.env ≠ [])
    (h2 : List.lookup (chars "ANTHROPIC_BASE_URL") c.env = none) :
    detect_provider c = Provider.Anthropic := by
  have hb : baseUrl c = [] := by simp [baseUrl, h2]
  have hc : rustContains [] (chars "z.ai") = false := by decide
  obtain ⟨env⟩ := c
  cases env with
  | nil => exact absurd rfl h1
  | cons kv tl =>
    simp only [detect_provider, hb, hc]
    rfl

/-- A non-empty list is not `isEmpty`. -/
theorem isEmpty_false_of_ne {α : Type} {l : List α} (h : l ≠ []) :
    l.isEmpty = false := by
  cases l with
  | nil => exact absurd rfl h
  | cons a t => rfl

/-! ### Claims -/

/-- Claim C1 (the claim holds of the spec's intent; the code deviates):
the claim says `save_backup` writes the `BackupConfig` wrapper including
the `_metadata` object to the backup path. The code instead writes the
bare `Config { env }` there (manager.rs line 108), so the document at the
backup path never parses as the new `BackupConfig` shape; only the
sidecar receives the metadata. This theorem evaluates the code: for every
config, provider and time, the JSON written to the backup path decodes
only as a bare legacy `Config`, never as `BackupConfig`. -/
theorem c1_backup_file_lacks_metadata (c : Config) (p : Provider) (now : Int) :
    decodeBackupConfig ((create_backup_with_metadata c p now).1) = none
    ∧ decodeConfig ((create_backup_with_metadata c p now).1) = some ⟨c.env⟩
    ∧ (create_backup_with_metadata c p now).2
        = encodeMetadata ⟨p.as_str, some now, chars "2.2.0"⟩ :=
  ⟨decodeBackupConfig_encodeConfig ⟨c.env⟩, decodeConfig_encodeConfig ⟨c.env⟩, rfl⟩

/-- Claim C2: saving a backup for any provider `p` and then loading it
yields `(true, some b)` where `b.env` is the saved env but the metadata
carries the default provider's tag (`anthropic`) and a created_at freshly
synthesized at load time — the right-hand side mentions neither `p` nor
the save time, so the provider tag supplied at save time is never
recoverable and every self-written backup reads back as a
default-provider backup. -/
theorem c2_backup_roundtrip_forgets_provider (c : Config) (p : Provider)
    (nowSave nowLoad : Int) :
    has_valid_anthropic_backup
      (some (.json ((create_backup_with_metadata c p nowSave).1))) nowLoad
    = (true, some ⟨⟨Provider.Anthropic.as_str, some nowLoad, chars "2.2.0"⟩,
                   c.env⟩) := by
  show has_valid_anthropic_backup (some (.json (encodeConfig ⟨c.env⟩))) nowLoad = _
  simp only [has_valid_anthropic_backup, decodeBackupConfig_encodeConfig,
    decodeConfig_encodeConfig]

/-- Claim C4: `detect_provider` follows the ordered decision of the
source — empty env gives Unknown; else a base URL containing `z.ai`
gives GLM; else an empty base URL (including an absent key) gives
Anthropic; else Custom. The result depends only on the base-URL value
and on whether the env is empty, and a non-empty config with no base-URL
key is Anthropic, not Unknown. -/
theorem c4_detect_provider_characterization :
    (∀ c : Config, c.env = [] → detect_provider c = Provider.Unknown)
    ∧ (∀ c : Config, c.env ≠ [] →
        rustContains (baseUrl c) (chars "z.ai") = true →
        detect_provider c = Provider.GLM)
    ∧ (∀ c : Config, c.env ≠ [] →
        rustContains (baseUrl c) (chars "z.ai") = false →
        baseUrl c = [] → detect_provider c = Provider.Anthropic)
    ∧ (∀ c : Config, c.env ≠ [] →
        rustContains (baseUrl c) (chars "z.ai") = false →
        baseUrl c ≠ [] → detect_provider c = Provider.Custom)
    ∧ (∀ c₁ c₂ : Config, c₁.env.isEmpty = c₂.env.isEmpty →
        List.lookup (chars "ANTHROPIC_BASE_URL") c₁.env
          = List.lookup (chars "ANTHROPIC_BASE_URL") c₂.env →
        detect_provider c₁ = detect_provider c₂)
    ∧ (∀ c : Config, c.env ≠ [] →
        List.lookup (chars "ANTHROPIC_BASE_URL") c.env = none →
        detect_provider c = Provider.Anthropic) := by
  refine ⟨?_, ?_, ?_, ?_, ?_, ?_⟩
  · intro c h
    simp [detect_provider, h]
  · intro c h1 h2
    simp [detect_provider, isEmpty_false_of_ne h1, h2]
  · intro c h1 h2 h3
    have h0 : rustContains [] (chars "z.ai") = false := by decide
    simp [detect_provider, isEmpty_false_of_ne h1, h2, h3, h0]
  · intro c h1 h2 h3
    simp [detect_provider, isEmpty_false_of_ne h1, h2, isEmpty_false_of_ne h3]
  · intro c₁ c₂ h1 h2
    have hb : baseUrl c₁ = baseUrl c₂ := by simp [baseUrl, h2]
    simp only [detect_provider, h1, hb]
  · intro c h1 h2
    exact detect_provider_nonempty_nobase c h1 h2

/-- Witness for C4: a non-empty config with only an unrelated key and no
base-URL key is classified Anthropic (Default), not Unknown. -/
theorem c4_detect_provider_characterization_witness :
    detect_provider ⟨[(chars "CLAUDE_CODE_MAX_TOKENS", chars "1")]⟩
      = Provider.Anthropic :=
  c4_detect_provider_characterization.2.2.2.2.2
    ⟨[(chars "CLAUDE_CODE_MAX_TOKENS", chars "1")]⟩ (by decide) (by decide)

/-- Claim C5: the config built by `create_glm_config` binds exactly the
keys enumerated by the claim — the auth token key to the supplied token
and the five alternate-provider keys to fixed literals — and no others. -/
theorem c5_create_glm_config_exact_keys (t : Str) :
    ((create_glm_config t).env.map Prod.fst
      = [chars "ANTHROPIC_AUTH_TOKEN", chars "ANTHROPIC_BASE_URL",
         chars "API_TIMEOUT_MS", chars "ANTHROPIC_DEFAULT_OPUS_MODEL",
         chars "ANTHROPIC_DEFAULT_SONNET_MODEL",
         chars "ANTHROPIC_DEFAULT_HAIKU_MODEL"])
    ∧ (∀ k : Str, List.lookup k (create_glm_config t).env =
        if k == chars "ANTHROPIC_AUTH_TOKEN" then some t
        else if k == chars "ANTHROPIC_BASE_URL" then
          some (chars "https://api.z.ai/api/anthropic")
        else if k == chars "API_TIMEOUT_MS" then some (chars "3000000")
        else if k == chars "ANTHROPIC_DEFAULT_OPUS_MODEL" then
          some (chars "GLM-4.7")
        else if k == chars "ANTHROPIC_DEFAULT_SONNET_MODEL" then
          some (chars "GLM-4.7")
        else if k == chars "ANTHROPIC_DEFAULT_HAIKU_MODEL" then
          some (chars "GLM-4.5-Air")
        else none) := by
  constructor
  · rfl
  · intro k
    simp only [create_glm_config]
    cases h1 : k == chars "ANTHROPIC_AUTH_TOKEN" <;>
      cases h2 : k == chars "ANTHROPIC_BASE_URL" <;>
        cases h3 : k == chars "API_TIMEOUT_MS" <;>
          cases h4 : k == chars "ANTHROPIC_DEFAULT_OPUS_MODEL" <;>
            cases h5 : k == chars "ANTHROPIC_DEFAULT_SONNET_MODEL" <;>
              cases h6 : k == chars "ANTHROPIC_DEFAULT_HAIKU_MODEL" <;>
                simp [List.lookup, h1, h2, h3, h4, h5, h6]

/-- Claim C8: `has_valid_anthropic_backup` accepts the two on-disk
shapes and degrades gracefully. An absent file or unparseable text gives
`(false, none)`; a document parsing as `BackupConfig` is classified by
its stored provider tag; a document parsing only as a bare legacy
`Config` is treated as a default-provider backup with metadata
synthesized at load time; a document parsing as neither gives
`(false, none)` — in no case does a parse failure escape as an error. -/
theorem c8_load_backup_two_shapes :
    (∀ n : Int, has_valid_anthropic_backup none n = (false, none))
    ∧ (∀ n : Int,
        has_valid_anthropic_backup (some FileContent.invalid) n = (false, none))
    ∧ (∀ (j : Json) (b : BackupConfig) (n : Int),
        decodeBackupConfig j = some b →
        has_valid_anthropic_backup (some (FileContent.json j)) n
          = (b.metadata.provider == Provider.Anthropic.as_str, some b))
    ∧ (∀ (j : Json) (c : Config) (n : Int),
        decodeBackupConfig j = none → decodeConfig j = some c →
        has_valid_anthropic_backup (some (FileContent.json j)) n
          = (true, some ⟨⟨Provider.Anthropic.as_str, some n, chars "2.2.0"⟩,
                         c.env⟩))
    ∧ (∀ (j : Json) (n : Int),
        decodeBackupConfig j = none → decodeConfig j = none →
        has_valid_anthropic_backup (some (FileContent.json j)) n
          = (false, none)) := by
  refine ⟨fun n => rfl, fun n => rfl, ?_, ?_, ?_⟩
  · intro j b n hd
    simp [has_valid_anthropic_backup, hd]
  · intro j c n hd hc
    simp [has_valid_anthropic_backup, hd, hc]
  · intro j n hd hc
    simp [has_valid_anthropic_backup, hd, hc]

/-- Witness for C8: a concrete legacy bare-config document reads back as
a valid default-provider backup with synthesized metadata, and a concrete
new-format document tagged `z_ai` reads back as present but not valid. -/
theorem c8_load_backup_two_shapes_witness :
    has_valid_anthropic_backup (some (FileContent.json
        (Json.obj [(chars "env",
          Json.obj [(chars "K", Json.str (chars "v"))])]))) 7
      = (true, some ⟨⟨Provider.Anthropic.as_str, some 7, chars "2.2.0"⟩,
                     [(chars "K", chars "v")]⟩)
    ∧ has_valid_anthropic_backup (some (FileContent.json
        (Json.obj [(chars "_metadata",
            Json.obj [(chars "provider", Json.str (chars "z_ai")),
                      (chars "created_at", Json.null),
                      (chars "version", Json.str (chars "2.2.0"))]),
          (chars "env", Json.obj [])]))) 7
      = (false, some ⟨⟨chars "z_ai", none, chars "2.2.0"⟩, []⟩) := by
  constructor
  · exact c8_load_backup_two_shapes.2.2.2.1 _ ⟨[(chars "K", chars "v")]⟩ 7
      (by decide) (by decide)
  · exact c8_load_backup_two_shapes.2.2.1 _
      ⟨⟨chars "z_ai", none, chars "2.2.0"⟩, []⟩ 7 (by decide)

set_option maxRecDepth 4000 in
/-- Claim C9: the ordered classification rules of `detect_token_type`:
empty gives Unknown; an `sk-` or `glm-` prefix gives the alternate key
type; else at least two dots and byte length over 100 gives the default
web-token type; else length over 200 gives the web-token type; else
length under 100 gives the alternate key type; else (length in
[100, 200] without the dot structure) Unknown — and the gap is
inhabited, e.g. by 150 letters. -/
theorem c9_detect_token_type_rules :
    (detect_token_type [] = TokenType.Unknown)
    ∧ (∀ t : Str, (chars "sk-").isPrefixOf t = true →
        detect_token_type t = TokenType.GLM)
    ∧ (∀ t : Str, (chars "glm-").isPrefixOf t = true →
        detect_token_type t = TokenType.GLM)
    ∧ (∀ t : Str, t ≠ [] → (chars "sk-").isPrefixOf t = false →
        (chars "glm-").isPrefixOf t = false →
        2 ≤ t.count '.' → 100 < rustLen t →
        detect_token_type t = TokenType.Anthropic)
    ∧ (∀ t : Str, t ≠ [] → (chars "sk-").isPrefixOf t = false →
        (chars "glm-").isPrefixOf t = false → 200 < rustLen t →
        detect_token_type t = TokenType.Anthropic)
    ∧ (∀ t : Str, t ≠ [] → (chars "sk-").isPrefixOf t = false →
        (chars "glm-").isPrefixOf t = false → rustLen t < 100 →
        detect_token_type t = TokenType.GLM)
    ∧ (∀ t : Str, t ≠ [] → (chars "sk-").isPrefixOf t = false →
        (chars "glm-").isPrefixOf t = false →
        ¬(2 ≤ t.count '.' ∧ 100 < rustLen t) →
        100 ≤ rustLen t → rustLen t ≤ 200 →
        detect_token_type t = TokenType.Unknown)
    ∧ detect_token_type (List.replicate 150 'a') = TokenType.Unknown := by
  refine ⟨rfl, ?_, ?_, ?_, ?_, ?_, ?_, by decide⟩
  · intro t h
    cases t with
    | nil => exact absurd h (by decide)
    | cons c tl => simp [detect_token_type, h]
  · intro t h
    cases t with
    | nil => exact absurd h (by decide)
    | cons c tl => simp [detect_token_type, h]
  · intro t h1 h2 h3 h4 h5
    simp [detect_token_type, isEmpty_false_of_ne h1, h2, h3, h4, h5]
  · intro t h1 h2 h3 h4
    have h5 : 100 < rustLen t := by omega
    by_cases hc : 2 ≤ t.count '.'
    · simp [detect_token_type, isEmpty_false_of_ne h1, h2, h3, hc, h4, h5]
    · simp [detect_token_type, isEmpty_false_of_ne h1, h2, h3, hc, h4]
  · intro t h1 h2 h3 h4
    have h5 : ¬(100 < rustLen t) := by omega
    have h6 : ¬(200 < rustLen t) := by omega
    simp [detect_token_type, isEmpty_false_of_ne h1, h2, h3, h4, h5, h6]
  · intro t h1 h2 h3 h4 h5 h6
    have h7 : ¬(200 < rustLen t) := by omega
    have h8 : ¬(rustLen t < 100) := by omega
    simp [detect_token_type, isEmpty_false_of_ne h1, h2, h3, h4, h7, h8]

set_option maxRecDepth 4000 in
/-- Witness for C9: a 101-dot token is classified as a default web
token. -/
theorem c9_detect_token_type_rules_witness :
    detect_token_type (List.replicate 101 '.') = TokenType.Anthropic :=
  c9_detect_token_type_rules.2.2.2.1 (List.replicate 101 '.')
    (by decide) (by decide) (by decide) (by decide) (by decide)

/-- `rustLen` of a cons. -/
theorem rustLen_cons (c : Char) (l : Str) :
    rustLen (c :: l) = c.utf8Size + rustLen l := by
  simp [rustLen]

/-- `rustLen` of an append. -/
theorem rustLen_append (a b : Str) :
    rustLen (a ++ b) = rustLen a + rustLen b := by
  simp [rustLen]

/-- A successful `takeBytes n` returns exactly `n` bytes. -/
theorem takeBytes_some_rustLen :
    ∀ (t : Str) (n : Nat) (a : Str), takeBytes n t = some a → rustLen a = n := by
  intro t
  induction t with
  | nil =>
    intro n a h
    cases n with
    | zero =>
      injection h with h'
      subst h'
      rfl
    | succ m => exact Option.noConfusion h
  | cons c rest ih =>
    intro n a h
    cases n with
    | zero =>
      injection h with h'
      subst h'
      rfl
    | succ m =>
      unfold takeBytes at h
      by_cases hc : c.utf8Size ≤ m + 1
      · rw [if_pos hc] at h
        obtain ⟨a', ha', rfl⟩ := Option.map_eq_some'.mp h
        have := ih (m + 1 - c.utf8Size) a' ha'
        rw [rustLen_cons]
        omega
      · rw [if_neg hc] at h
        exact Option.noConfusion h

/-- A successful `dropBytes n` drops exactly `n` bytes. -/
theorem dropBytes_some_rustLen :
    ∀ (t : Str) (n : Nat) (b : Str),
      dropBytes n t = some b → rustLen b + n = rustLen t := by
  intro t
  induction t with
  | nil =>
    intro n b h
    cases n with
    | zero =>
      injection h with h'
      subst h'
      rfl
    | succ m => exact Option.noConfusion h
  | cons c rest ih =>
    intro n b h
    cases n with
    | zero =>
      injection h with h'
      subst h'
      rfl
    | succ m =>
      unfold dropBytes at h
      by_cases hc : c.utf8Size ≤ m + 1
      · rw [if_pos hc] at h
        have := ih (m + 1 - c.utf8Size) b h
        rw [rustLen_cons]
        omega
      · rw [if_neg hc] at h
        exact Option.noConfusion h

/-- On an all-ASCII string, byte length equals character count. -/
theorem rustLen_ascii :
    ∀ t : Str, (∀ c ∈ t, Char.utf8Size c = 1) → rustLen t = t.length := by
  intro t
  induction t with
  | nil => intro _; rfl
  | cons c rest ih =>
    intro h
    rw [rustLen_cons, h c (by simp), ih (fun d hd => h d (by simp [hd]))]
    simp [Nat.add_comm]

/-- On an all-ASCII string, `takeBytes` is `List.take`. -/
theorem takeBytes_ascii :
    ∀ (t : Str) (n : Nat), (∀ c ∈ t, Char.utf8Size c = 1) → n ≤ t.length →
      takeBytes n t = some (t.take n) := by
  intro t
  induction t with
  | nil =>
    intro n _ hn
    have hz : n = 0 := by simpa using hn
    subst hz
    rfl
  | cons c rest ih =>
    intro n h hn
    cases n with
    | zero => rfl
    | succ m =>
      have hc : c.utf8Size = 1 := h c (by simp)
      unfold takeBytes
      rw [if_pos (by omega)]
      rw [hc]
      have : m + 1 - 1 = m := by omega
      rw [this, ih m (fun d hd => h d (by simp [hd])) (by simpa using hn)]
      rfl

/-- On an all-ASCII string, `dropBytes` is `List.drop`. -/
theorem dropBytes_ascii :
    ∀ (t : Str) (n : Nat), (∀ c ∈ t, Char.utf8Size c = 1) → n ≤ t.length →
      dropBytes n t = some (t.drop n) := by
  intro t
  induction t with
  | nil =>
    intro n _ hn
    have hz : n = 0 := by simpa using hn
    subst hz
    rfl
  | cons c rest ih =>
    intro n h hn
    cases n with
    | zero => rfl
    | succ m =>
      have hc : c.utf8Size = 1 := h c (by simp)
      unfold dropBytes
      rw [if_pos (by omega)]
      rw [hc]
      have : m + 1 - 1 = m := by omega
      rw [this, ih m (fun d hd => h d (by simp [hd])) (by simpa using hn)]
      rfl

/-- Claim C10 as amended: a token of at most 8 bytes always yields the
fixed 8-character mask. A token of more than 8 bytes yields the first 4
bytes, `"..."`, and the last 4 bytes — an 11-byte string — whenever the
two 4-byte slice boundaries fall on character boundaries; in particular
for every all-ASCII token this always succeeds and the pieces are the
first and last 4 characters. (Where a boundary falls inside a character
the Rust slice panics, i.e. the function returns no value; see the
counterexample.) -/
theorem c10_mask_token_characterization :
    (∀ t : Str, rustLen t ≤ 8 → mask_token t = some (chars "********"))
    ∧ (∀ t a b : Str, 8 < rustLen t → takeBytes 4 t = some a →
        dropBytes (rustLen t - 4) t = some b →
        mask_token t = some (a ++ chars "..." ++ b) ∧
        rustLen a = 4 ∧ rustLen b = 4 ∧
        rustLen (a ++ chars "..." ++ b) = 11)
    ∧ (∀ t : Str, (∀ c ∈ t, Char.utf8Size c = 1) → 8 < rustLen t →
        mask_token t
          = some (t.take 4 ++ chars "..." ++ t.drop (t.length - 4))) := by
  refine ⟨?_, ?_, ?_⟩
  · intro t h
    simp [mask_token, h]
  · intro t a b h8 hta hdb
    have h1 : rustLen a = 4 := takeBytes_some_rustLen t 4 a hta
    have h2 : rustLen b + (rustLen t - 4) = rustLen t :=
      dropBytes_some_rustLen t (rustLen t - 4) b hdb
    have h3 : rustLen b = 4 := by omega
    refine ⟨?_, h1, h3, ?_⟩
    · unfold mask_token
      rw [if_neg (by omega), hta, hdb]
    · rw [rustLen_append, rustLen_append, h1, h3]
      rfl
  · intro t hascii h8
    have hlen : rustLen t = t.length := rustLen_ascii t hascii
    have h4 : (4 : Nat) ≤ t.length := by omega
    have hta : takeBytes 4 t = some (t.take 4) := takeBytes_ascii t 4 hascii h4
    have hdb : dropBytes (rustLen t - 4) t = some (t.drop (t.length - 4)) := by
      rw [hlen]
      exact dropBytes_ascii t (t.length - 4) hascii (by omega)
    unfold mask_token
    rw [if_neg (by omega), hta, hdb]

/-- Witness for C10: a concrete long ASCII token masks to its first four
characters, dots, and last four characters, and a concrete short token
masks to the fixed mask. -/
theorem c10_mask_token_characterization_witness :
    mask_token (chars "sk-abcdefgh") = some (chars "sk-a...efgh")
    ∧ mask_token (chars "short") = some (chars "********") := by
  constructor
  · exact (c10_mask_token_characterization.2.1 (chars "sk-abcdefgh")
      (chars "sk-a") (chars "efgh") (by decide) (by decide) (by decide)).1
  · exact c10_mask_token_characterization.1 (chars "short") (by decide)

/-- A token on which `mask_token`'s byte slicing panics: each character
is 3 UTF-8 bytes, so byte index 4 is not a character boundary. -/
def c10_panic_token : Str := chars "日本語日本語"

/-- Counterexample for C10 as stated: this token is longer than 8 bytes,
yet `mask_token` does not return a masked string — the slice
`&token[..4]` panics because byte 4 falls inside a character. -/
theorem c10_claim_counterexample :
    8 < rustLen c10_panic_token ∧ mask_token c10_panic_token = none :=
  ⟨by decide, by decide⟩

/-- Loading a settings file holding an encoded config yields that
config. -/
theorem load_config_encoded (c : Config) :
    load_config (some (.json (encodeConfig c))) = .ok c := by
  simp [load_config, decodeConfig_encodeConfig]

/-- The no-op branch of `switch_to_anthropic`: if the current settings
already detect as Anthropic, nothing is written. -/
theorem switch_to_anthropic_noop (st : State) (now : Int) (current : Config)
    (hL : load_config st.settings = .ok current)
    (hd : detect_provider current = Provider.Anthropic) :
    switch_to_anthropic st now = .ok (st, .alreadyAnthropic) := by
  simp only [switch_to_anthropic, hL]
  rw [if_pos hd]

/-- When the current settings decode to a non-Anthropic config,
`switch_to_anthropic` dispatches on the backup check. -/
theorem switch_to_anthropic_branch (st : State) (now : Int) (current : Config)
    (hL : load_config st.settings = .ok current)
    (hd : detect_provider current ≠ Provider.Anthropic) :
    switch_to_anthropic st now =
      match has_valid_anthropic_backup st.backup now with
      | (true, some b) =>
        .ok ({ st with settings := some (.json (encodeConfig
            ⟨b.env.filter (fun kv => !(is_glm_key kv.1))⟩)) },
          .restoredFromBackup)
      | _ =>
        .ok ({ st with settings := some (.json (encodeConfig ⟨[]⟩)) },
          .emptyConfigWritten) := by
  simp only [switch_to_anthropic, hL]
  rw [if_neg hd]

/-- An existing valid Anthropic backup is never overwritten by
`backup_anthropic_config_if_needed`. -/
theorem backup_if_needed_preserved (st : State) (current : Config) (now : Int)
    (h : (has_valid_anthropic_backup st.backup now).1 = true) :
    backup_anthropic_config_if_needed st current now = st := by
  obtain ⟨b, hb⟩ := has_valid_true_some st.backup now h
  unfold backup_anthropic_config_if_needed
  rcases hv : has_valid_anthropic_backup st.backup now with ⟨fst, snd⟩
  rw [hv] at h hb
  simp only at h hb
  subst h
  subst hb
  rfl

/-- Claim C6: in the restore branch of `switch_to_default`, the new
settings are exactly `backup.env` with every `is_glm_key` key removed;
`is_glm_key` holds exactly of the fixed five alternate-provider keys; and
every other key of `backup.env` (the auth-token key included) is looked
up unchanged in the restored env. -/
theorem c6_restore_strips_glm_keys (st : State) (now : Int) (current : Config)
    (b : BackupConfig)
    (hL : load_config st.settings = .ok current)
    (hd : detect_provider current ≠ Provider.Anthropic)
    (hb : has_valid_anthropic_backup st.backup now = (true, some b)) :
    switch_to_anthropic st now
      = .ok ({ st with settings := some (.json (encodeConfig
          ⟨b.env.filter (fun kv => !(is_glm_key kv.1))⟩)) },
        .restoredFromBackup)
    ∧ (∀ k : Str, is_glm_key k = false →
        List.lookup k (b.env.filter (fun kv => !(is_glm_key kv.1)))
          = List.lookup k b.env)
    ∧ (∀ k : Str, is_glm_key k = true ↔
        (k = chars "ANTHROPIC_BASE_URL" ∨ k = chars "API_TIMEOUT_MS" ∨
         k = chars "ANTHROPIC_DEFAULT_OPUS_MODEL" ∨
         k = chars "ANTHROPIC_DEFAULT_SONNET_MODEL" ∨
         k = chars "ANTHROPIC_DEFAULT_HAIKU_MODEL")) := by
  refine ⟨?_, fun k hk => lookup_filter_eq is_glm_key k hk b.env, fun k => ?_⟩
  · rw [switch_to_anthropic_branch st now current hL hd, hb]
  · simp only [is_glm_key, Bool.or_eq_true, beq_iff_eq]
    tauto

/-- Concrete starting state for the C6 witness: GLM settings and a
legacy bare-config backup holding an auth token and a base URL. -/
def c6_witness_state : State :=
  ⟨some (.json (encodeConfig (create_glm_config (chars "sk-test1234")))),
   some (.json (Json.obj [(chars "env", Json.obj
     [(chars "ANTHROPIC_AUTH_TOKEN", Json.str (chars "mytok")),
      (chars "ANTHROPIC_BASE_URL",
       Json.str (chars "https://api.z.ai/api/anthropic"))])])),
   none, none⟩

/-- The backup value that `has_valid_anthropic_backup` synthesizes for
the C6 witness state at time 5. -/
def c6_witness_backup : BackupConfig :=
  ⟨⟨chars "anthropic", some 5, chars "2.2.0"⟩,
   [(chars "ANTHROPIC_AUTH_TOKEN", chars "mytok"),
    (chars "ANTHROPIC_BASE_URL", chars "https://api.z.ai/api/anthropic")]⟩

/-- Witness for C6: restoring from the concrete backup strips the base
URL (a GLM key) and keeps the auth token. -/
theorem c6_restore_strips_glm_keys_witness :
    switch_to_anthropic c6_witness_state 5
      = .ok ({ c6_witness_state with settings := some (.json (encodeConfig
          ⟨[(chars "ANTHROPIC_AUTH_TOKEN", chars "mytok")]⟩)) },
        .restoredFromBackup) :=
  (c6_restore_strips_glm_keys c6_witness_state 5
    (create_glm_config (chars "sk-test1234")) c6_witness_backup
    (by rfl) (by decide) (by rfl)).1

/-- Claim C7: `switch_to_glm` never touches the backup file (or its
metadata sidecar) when a valid Anthropic backup already exists, and the
Unknown and Custom branches never create or modify any backup at all —
so repeated switches can never overwrite a valid default backup. -/
theorem c7_switch_to_glm_preserves_backup :
    (∀ (st : State) (tok : Str) (now : Int) (s' : State) (r : Report),
      (has_valid_anthropic_backup st.backup now).1 = true →
      switch_to_glm st tok now = .ok (s', r) →
      s'.backup = st.backup ∧ s'.backupMeta = st.backupMeta)
    ∧ (∀ (st : State) (tok : Str) (now : Int) (s' : State) (r : Report)
        (current : Config),
      load_config st.settings = .ok current →
      (detect_provider current = Provider.Unknown ∨
        detect_provider current = Provider.Custom) →
      switch_to_glm st tok now = .ok (s', r) →
      s'.backup = st.backup ∧ s'.backupMeta = st.backupMeta) := by
  constructor
  · intro st tok now s' r h1 h2
    unfold switch_to_glm at h2
    split at h2
    · exact Except.noConfusion h2
    next current hL =>
      by_cases hd : detect_provider current = Provider.GLM
      · rw [if_pos hd, Except.ok.injEq, Prod.mk.injEq] at h2
        obtain ⟨h5, -⟩ := h2
        subst h5
        exact ⟨rfl, rfl⟩
      · rw [if_neg hd, Except.ok.injEq, Prod.mk.injEq] at h2
        obtain ⟨h5, -⟩ := h2
        subst h5
        cases hdet : detect_provider current with
        | Anthropic =>
          simp only [hdet, backup_if_needed_preserved st current now h1]
          trivial
        | GLM => exact absurd hdet hd
        | Custom =>
          simp only [hdet]
          trivial
        | Unknown =>
          simp only [hdet]
          trivial
  · intro st tok now s' r current hL hdet h2
    unfold switch_to_glm at h2
    split at h2
    · exact Except.noConfusion h2
    next cur hL2 =>
      rw [hL] at hL2
      injection hL2 with hcc
      subst hcc
      have hd : detect_provider current ≠ Provider.GLM := by
        rcases hdet with h | h <;> simp [h]
      rw [if_neg hd, Except.ok.injEq, Prod.mk.injEq] at h2
      obtain ⟨h5, -⟩ := h2
      subst h5
      rcases hdet with h | h <;>
        · simp only [h]
          trivial

/-- Concrete starting state for the C7 witness: Anthropic-classified
settings and a legacy (hence valid) backup on disk. -/
def c7_witness_state : State :=
  ⟨some (.json (Json.obj [(chars "env",
     Json.obj [(chars "A", Json.str (chars "b"))])])),
   some (.json (Json.obj [(chars "env",
     Json.obj [(chars "ANTHROPIC_AUTH_TOKEN", Json.str (chars "old"))])])),
   none, none⟩

/-- Witness for C7: switching the concrete Anthropic state to GLM leaves
the existing valid backup and its sidecar untouched. -/
theorem c7_switch_to_glm_preserves_backup_witness :
    ({ c7_witness_state with settings := some (.json (encodeConfig
        (create_glm_config (chars "sk-new")))) } : State).backup
      = c7_witness_state.backup
    ∧ ({ c7_witness_state with settings := some (.json (encodeConfig
        (create_glm_config (chars "sk-new")))) } : State).backupMeta
      = c7_witness_state.backupMeta :=
  c7_switch_to_glm_preserves_backup.1 c7_witness_state (chars "sk-new") 3
    ({ c7_witness_state with settings := some (.json (encodeConfig
        (create_glm_config (chars "sk-new")))) })
    .switchedToGLM (by decide) (by rfl)

/-- Claim C3 as amended: for every starting state, if the first
`switch_to_default` call succeeds it yields settings on which a second
call succeeds with the same final settings file; the second call takes
the no-op branch unless the first call left an empty settings object
(the no-backup fallback, or a backup whose env strips to empty), in
which case the second call repeats its branch with an identical
result. -/
theorem c3_switch_to_default_idempotent_settings (st : State)
    (now1 now2 : Int) (s1 : State) (r1 : Report)
    (h : switch_to_anthropic st now1 = .ok (s1, r1)) :
    ∃ (s2 : State) (r2 : Report),
      switch_to_anthropic s1 now2 = .ok (s2, r2) ∧
      s2.settings = s1.settings ∧
      (r2 = Report.alreadyAnthropic ∨
        s1.settings = some (FileContent.json (Json.obj []))) := by
  rcases hL : load_config st.settings with e | current
  · have hx : switch_to_anthropic st now1 = .error e := by
      simp only [switch_to_anthropic, hL]
    rw [hx] at h
    exact Except.noConfusion h
  by_cases hd : detect_provider current = Provider.Anthropic
  · rw [switch_to_anthropic_noop st now1 current hL hd,
      Except.ok.injEq, Prod.mk.injEq] at h
    obtain ⟨h5, -⟩ := h
    subst h5
    exact ⟨st, .alreadyAnthropic,
      switch_to_anthropic_noop st now2 current hL hd, rfl, Or.inl rfl⟩
  · rw [switch_to_anthropic_branch st now1 current hL hd] at h
    split at h
    next b hveq =>
      rw [Except.ok.injEq, Prod.mk.injEq] at h
      obtain ⟨h5, -⟩ := h
      subst h5
      by_cases hF : b.env.filter (fun kv => !(is_glm_key kv.1)) = []
      · have hfst := has_valid_fst_time st.backup now2 now1
        have hsnd := has_valid_snd_env st.backup now2 now1
        rw [hveq] at hfst hsnd
        simp only at hfst hsnd
        obtain ⟨b2, hb2, hb2env⟩ := Option.map_eq_some'.mp hsnd
        have hv2 : has_valid_anthropic_backup st.backup now2 = (true, some b2) := by
          rcases hxx : has_valid_anthropic_backup st.backup now2 with ⟨f2, o2⟩
          rw [hxx] at hfst hb2
          simp only at hfst hb2
          rw [hfst, hb2]
        have hL2 : load_config ({ st with settings := some (.json (encodeConfig
            ⟨b.env.filter (fun kv => !(is_glm_key kv.1))⟩)) } : State).settings
            = .ok ⟨b.env.filter (fun kv => !(is_glm_key kv.1))⟩ :=
          load_config_encoded _
        have hd2 : detect_provider
            (⟨b.env.filter (fun kv => !(is_glm_key kv.1))⟩ : Config)
            ≠ Provider.Anthropic := by
          rw [hF]
          decide
        refine ⟨⟨some (.json (encodeConfig
            ⟨b2.env.filter (fun kv => !(is_glm_key kv.1))⟩)),
            st.backup, st.backupMeta, st.token⟩,
          .restoredFromBackup, ?_, ?_, Or.inr ?_⟩
        · rw [switch_to_anthropic_branch _ now2 _ hL2 hd2]
          simp only [hv2]
        · simp only [hb2env]
        · simp only [hF]
          rfl
      · have hL2 : load_config ({ st with settings := some (.json (encodeConfig
            ⟨b.env.filter (fun kv => !(is_glm_key kv.1))⟩)) } : State).settings
            = .ok ⟨b.env.filter (fun kv => !(is_glm_key kv.1))⟩ :=
          load_config_encoded _
        have hd2 : detect_provider
            (⟨b.env.filter (fun kv => !(is_glm_key kv.1))⟩ : Config)
            = Provider.Anthropic :=
          detect_provider_nonempty_nobase _ hF
            (lookup_filter_of_key is_glm_key (chars "ANTHROPIC_BASE_URL")
              (by decide) b.env)
        exact ⟨_, .alreadyAnthropic,
          switch_to_anthropic_noop _ now2 _ hL2 hd2, rfl, Or.inl rfl⟩
    next hne =>
      rw [Except.ok.injEq, Prod.mk.injEq] at h
      obtain ⟨h5, -⟩ := h
      subst h5
      have hL2 : load_config ({ st with settings := some (.json (encodeConfig
          (⟨[]⟩ : Config))) } : State).settings = .ok (⟨[]⟩ : Config) :=
        load_config_encoded _
      have hd2 : detect_provider (⟨[]⟩ : Config) ≠ Provider.Anthropic := by
        decide
      refine ⟨⟨some (.json (encodeConfig (⟨[]⟩ : Config))),
          st.backup, st.backupMeta, st.token⟩,
        .emptyConfigWritten, ?_, rfl, Or.inr rfl⟩
      rw [switch_to_anthropic_branch _ now2 _ hL2 hd2]
      rcases hxx : has_valid_anthropic_backup st.backup now2 with ⟨f2, o2⟩
      cases f2 with
      | false =>
        cases o2 with
        | none => simp only [hxx]
        | some b2 => simp only [hxx]
      | true =>
        cases o2 with
        | none => simp only [hxx]
        | some b2 =>
          exfalso
          have hfst := has_valid_fst_time st.backup now1 now2
          have hsnd := has_valid_snd_env st.backup now1 now2
          rw [hxx] at hfst hsnd
          simp only at hfst hsnd
          obtain ⟨b1, hb1, hb1env⟩ := Option.map_eq_some'.mp hsnd
          have hvv : has_valid_anthropic_backup st.backup now1 = (true, some b1) := by
            rcases hy : has_valid_anthropic_backup st.backup now1 with ⟨f1, o1⟩
            rw [hy] at hfst hb1
            simp only at hfst hb1
            rw [hfst, hb1]
          exact hne b1 hvv

/-- Starting state for the C3 counterexample: GLM settings on disk and no
backup file. -/
def c3_state0 : State :=
  ⟨some (.json (encodeConfig (create_glm_config (chars "sk-test1234")))),
   none, none, none⟩

/-- The state after the first `switch_to_default` call on `c3_state0`:
an empty settings object was written. -/
def c3_state1 : State := ⟨some (.json (Json.obj [])), none, none, none⟩

/-- Counterexample for C3 as stated: from GLM settings with no backup,
the first call writes an empty config; the second call produces the same
settings file but takes the no-backup fallback branch again, not the
"already default" no-op branch the claim requires. -/
theorem c3_claim_counterexample :
    switch_to_anthropic c3_state0 0 = .ok (c3_state1, Report.emptyConfigWritten)
    ∧ switch_to_anthropic c3_state1 0
        = .ok (c3_state1, Report.emptyConfigWritten)
    ∧ Report.emptyConfigWritten ≠ Report.alreadyAnthropic :=
  ⟨rfl, rfl, by decide⟩

/-- Witness for the amended C3 at a concrete state where the first call
wrote the empty-config fallback. -/
theorem c3_switch_to_default_idempotent_settings_witness :
    ∃ (s2 : State) (r2 : Report),
      switch_to_anthropic c3_state1 0 = .ok (s2, r2) ∧
      s2.settings = c3_state1.settings ∧
      (r2 = Report.alreadyAnthropic ∨
        c3_state1.settings = some (FileContent.json (Json.obj []))) :=
  c3_switch_to_default_idempotent_settings c3_state0 0 0 c3_state1
    Report.emptyConfigWritten rfl
